import Mathlib

/-
Verification of the encrypted vault subsystem of `dotp` (a local TOTP
secrets store), shallowly embedded from `src/dotp/vault.py` and
`src/dotp/crypto.py`.

Modelling conventions:
* Python `str` is modelled as `List Char` (`PyStr`).  Python's `str.lower`
  is modelled with `Char.toLower` (ASCII case folding; every label in the
  repository's data and tests is ASCII).
* Python exceptions are modelled by the inductive `PyErr`, one constructor
  per concrete exception class the embedded code can raise
  (`cryptography.fernet.InvalidToken`, `FileNotFoundError`,
  `json.JSONDecodeError`, `KeyError`, `TypeError`).  Raising is modelled
  with `Except` / explicit error results.
* The external `json` library is modelled at its interface: a Python
  string is represented by its parse classification `Plain := Option JVal`
  (`some j` for a string that parses to the JSON value `j`, `none` for a
  string `json.loads` rejects).  `json.dumps` of a value is that value;
  this is faithful because `dumps` is injective on the values produced
  here and `loads (dumps v) = v`.
* The external `cryptography` primitives are modelled at their interface:
  PBKDF2 (`derive_key`) is deterministic in `(password, salt)` and is
  idealised as collision-free, so a derived key is represented by the pair
  itself; a Fernet token records the encrypting key, the plaintext and the
  cipher's internal random nonce, and Fernet decryption succeeds exactly
  when the decrypting key equals the encrypting key (authenticated
  encryption), raising `InvalidToken` otherwise.
* `os.urandom(16)` draws are passed as explicit arguments (`randSalt`,
  `randNonce`) to the operations that consume randomness.
-/

namespace Dotp

/-- Python strings, as lists of characters. -/
abbrev PyStr := List Char

/-- Convenience conversion from Lean string literals. -/
def pystr (s : String) : PyStr := s.toList

/-- Python `str.lower()` (ASCII case folding). -/
def pyLower (s : PyStr) : PyStr := s.map Char.toLower

/-- Value of a hexadecimal digit character, as used by `urllib.parse.unquote`. -/
def hexDigitVal (c : Char) : Option Nat :=
  if '0' ≤ c ∧ c ≤ '9' then some (c.toNat - '0'.toNat)
  else if 'a' ≤ c ∧ c ≤ 'f' then some (c.toNat - 'a'.toNat + 10)
  else if 'A' ≤ c ∧ c ≤ 'F' then some (c.toNat - 'A'.toNat + 10)
  else none

/-- `urllib.parse.unquote`: percent-decoding.  A valid `%XX` sequence is
replaced by the character with code `XX`; an invalid sequence is kept
literally (Python keeps the `%` and rescans from the next character).
Multi-byte UTF-8 percent-sequences decode to the individual bytes here;
no claim involves non-ASCII labels. -/
def unquote : PyStr → PyStr
  | [] => []
  | '%' :: c1 :: c2 :: rest =>
    match hexDigitVal c1, hexDigitVal c2 with
    | some v1, some v2 => Char.ofNat (16 * v1 + v2) :: unquote rest
    | _, _ => '%' :: unquote (c1 :: c2 :: rest)
  | c :: rest => c :: unquote rest

/-- The concrete Python exception classes the embedded code can raise. -/
inductive PyErr where
  | invalidToken
  | fileNotFoundError
  | jsonDecodeError
  | keyError
  | typeError
deriving DecidableEq, Repr

/-- JSON values (the fragment the vault payload lives in). -/
inductive JVal where
  | jstr (s : PyStr)
  | jint (n : Int)
  | jbool (b : Bool)
  | jnull
  | jarr (xs : List JVal)
  | jobj (kvs : List (PyStr × JVal))

/-- A Python string, classified by `json.loads`: `some j` if it parses to
the JSON value `j`, `none` if it is not valid JSON. -/
abbrev Plain := Option JVal

/-! ## Entry model (`TOTPEntry` in `vault.py`) -/

/-- `@dataclass TOTPEntry` from `vault.py`: label, secret, and the three
defaulted fields `digits = 6`, `algorithm = "SHA1"`, `period = 30`.
Fields are modelled at the types the spec's data model gives them; the
dataclass itself performs no runtime type validation, so a record binding
a field to a value of another type still constructs, with the stored
value represented per `pyStrOfJVal`/`pyIntOfJVal`. -/
structure TOTPEntry where
  label : PyStr
  secret : PyStr
  digits : Int
  algorithm : PyStr
  period : Int
deriving DecidableEq, Repr

def kLabel : PyStr := pystr "label"
def kSecret : PyStr := pystr "secret"
def kDigits : PyStr := pystr "digits"
def kAlgorithm : PyStr := pystr "algorithm"
def kPeriod : PyStr := pystr "period"
def kEntries : PyStr := pystr "entries"
def defaultAlgorithm : PyStr := pystr "SHA1"

/-- The five dataclass field names of `TOTPEntry`, in declaration order. -/
def entryFieldNames : List PyStr := [kLabel, kSecret, kDigits, kAlgorithm, kPeriod]

/-- `TOTPEntry.to_dict`: `dataclasses.asdict`, i.e. a dict with exactly the
five fields in declaration order. -/
def TOTPEntry.to_dict (e : TOTPEntry) : List (PyStr × JVal) :=
  [(kLabel, .jstr e.label), (kSecret, .jstr e.secret), (kDigits, .jint e.digits),
   (kAlgorithm, .jstr e.algorithm), (kPeriod, .jint e.period)]

/-- Representation of an arbitrary JSON value stored in a string-typed
entry slot.  The dataclass stores whatever value it is given, with no
validation; the typed model keeps a string value exactly and represents a
value of any other type canonically (such a value cannot inhabit the
typed slot, and no theorem depends on the representation chosen). -/
def pyStrOfJVal : JVal → PyStr
  | .jstr s => s
  | _ => []

/-- Representation of an arbitrary JSON value stored in an integer-typed
entry slot; integer values are kept exactly, others represented
canonically (see `pyStrOfJVal`). -/
def pyIntOfJVal : JVal → Int
  | .jint n => n
  | _ => 0

/-- Look up a string-slot field; `dflt` is the dataclass default used when
the key is absent (`none` when the field is required).  A present value is
always accepted — `cls(**data)` performs no value-type validation. -/
def getStrField (data : List (PyStr × JVal)) (k : PyStr) (dflt : Option PyStr) :
    Option PyStr :=
  match data.lookup k with
  | some v => some (pyStrOfJVal v)
  | none => dflt

/-- Look up an integer-slot field; `dflt` is the dataclass default used
when the key is absent (`none` when the field is required).  A present
value is always accepted — `cls(**data)` performs no value-type
validation. -/
def getIntField (data : List (PyStr × JVal)) (k : PyStr) (dflt : Option Int) :
    Option Int :=
  match data.lookup k with
  | some v => some (pyIntOfJVal v)
  | none => dflt

/-- `TOTPEntry.from_dict(data)`, i.e. `cls(**data)`.  Python's call
semantics for `cls(**data)`: a key that is not a dataclass field name is an
unexpected keyword argument (`TypeError`); a missing `label` or `secret` is
a missing required positional argument (`TypeError`); `digits`,
`algorithm`, `period` default to `6`, `"SHA1"`, `30` when absent.  Any
present value is stored as given, with no type validation (values of the
wrong type are represented per `pyStrOfJVal`/`pyIntOfJVal`); construction
fails only on the key errors above, exactly as the dataclass call does. -/
def TOTPEntry.from_dict (data : List (PyStr × JVal)) : Except PyErr TOTPEntry :=
  if data.any (fun kv => !(entryFieldNames.contains kv.1)) then .error .typeError
  else
    match getStrField data kLabel none, getStrField data kSecret none,
        getIntField data kDigits (some 6),
        getStrField data kAlgorithm (some defaultAlgorithm),
        getIntField data kPeriod (some 30) with
    | some l, some s, some dg, some alg, some per => .ok ⟨l, s, dg, alg, per⟩
    | _, _, _, _, _ => .error .typeError

/-! ## Crypto engine (`crypto.py`) -/

/-- Salts and other byte strings, as lists of byte values. -/
abbrev Salt := List Nat

/-- A key derived by PBKDF2-HMAC-SHA256 (480000 iterations) from a password
and a salt.  The external KDF is deterministic in `(password, salt)` and is
idealised as collision-free, so the derived key is represented by the pair
itself. -/
structure DerivedKey where
  password : PyStr
  salt : Salt
deriving DecidableEq

/-- `derive_key(password, salt)` from `crypto.py`. -/
def derive_key (password : PyStr) (salt : Salt) : DerivedKey := ⟨password, salt⟩

/-- A Fernet token: authenticated encryption of `plaintext` under `key`,
with the cipher's internal random nonce.  Decryption with the same key
recovers the plaintext; decryption with any other key fails
authentication. -/
structure Cipher where
  key : DerivedKey
  plaintext : Plain
  nonce : Nat

/-- `encrypt_data(data, password)` from `crypto.py`.  The `os.urandom(16)`
salt draw and Fernet's internal random nonce are passed explicitly as
`randSalt` and `randNonce`.  Returns `(encrypted, salt)`. -/
def encrypt_data (data : Plain) (password : PyStr) (randSalt : Salt)
    (randNonce : Nat) : Cipher × Salt :=
  let salt := randSalt
  let key := derive_key password salt
  (⟨key, data, randNonce⟩, salt)

/-- `decrypt_data(encrypted_data, password, salt)` from `crypto.py`:
re-derives the key and Fernet-decrypts; a key mismatch (wrong password or
tampering) raises `cryptography.fernet.InvalidToken`. -/
def decrypt_data (c : Cipher) (password : PyStr) (salt : Salt) :
    Except PyErr Plain :=
  if c.key = derive_key password salt then .ok c.plaintext
  else .error .invalidToken

/-! ## Vault store (`Vault` in `vault.py`) -/

/-- The on-disk vault file: `salt (16 bytes) || Fernet token`.  `load`
slices the first 16 bytes back off, which is exact because the salt is
always 16 bytes, so the file is modelled by the pair. -/
structure VaultFile where
  salt : Salt
  cipher : Cipher

/-- A `Vault` instance together with the file (if any) at its
`vault_path`: `file` models the bytes on disk, `entries` the in-memory
`self._entries`. -/
structure VaultState where
  file : Option VaultFile
  entries : List TOTPEntry

/-- `json.dumps({"entries": [entry.to_dict() for entry in entries]})`,
as the parse classification of the dumped string. -/
def dumps_vault (entries : List TOTPEntry) : Plain :=
  some (.jobj [(kEntries, .jarr (entries.map (fun e => .jobj e.to_dict)))])

/-- `Vault.save(password)`: serialize `self._entries`, encrypt with a fresh
salt, write `salt + encrypted` to the vault path. -/
def Vault.save (st : VaultState) (password : PyStr) (randSalt : Salt)
    (randNonce : Nat) : VaultState :=
  let r := encrypt_data (dumps_vault st.entries) password randSalt randNonce
  { st with file := some ⟨r.2, r.1⟩ }

/-- `Vault.create(password)`: encrypt `json.dumps({"entries": []})` and
write `salt + encrypted` to the vault path.  `self._entries` is not
touched. -/
def Vault.create (st : VaultState) (password : PyStr) (randSalt : Salt)
    (randNonce : Nat) : VaultState :=
  let r := encrypt_data (dumps_vault []) password randSalt randNonce
  { st with file := some ⟨r.2, r.1⟩ }

/-- `json.loads(decrypted)`: fails with `json.JSONDecodeError` on a string
that is not valid JSON. -/
def json_loads (p : Plain) : Except PyErr JVal :=
  match p with
  | none => .error .jsonDecodeError
  | some j => .ok j

/-- Python `data["entries"]`: on a dict, key lookup (`KeyError` when the
key is absent); on a list, string or any other value, `TypeError`
(list/str indices must be integers; other values are not subscriptable). -/
def getitem_entries (data : JVal) : Except PyErr JVal :=
  match data with
  | .jobj kvs =>
    match kvs.lookup kEntries with
    | some v => .ok v
    | none => .error .keyError
  | _ => .error .typeError

/-- `TOTPEntry.from_dict(entry)` on one element of the iterated value:
`cls(**entry)` needs `entry` to be a mapping, so any non-dict element is a
`TypeError`. -/
def parse_entry_item (v : JVal) : Except PyErr TOTPEntry :=
  match v with
  | .jobj kvs => TOTPEntry.from_dict kvs
  | _ => .error .typeError

/-- The list comprehension `[TOTPEntry.from_dict(entry) for entry in xs]`,
evaluated left to right; the first raised exception aborts it. -/
def parse_items : List JVal → Except PyErr (List TOTPEntry)
  | [] => .ok []
  | x :: xs =>
    match parse_entry_item x with
    | .error e => .error e
    | .ok t =>
      match parse_items xs with
      | .error e => .error e
      | .ok ts => .ok (t :: ts)

/-- Iterating `data["entries"]` in the comprehension.  A JSON array
iterates its elements.  A non-empty string iterates characters and a
non-empty dict iterates keys, so the first `cls(**entry)` call raises
`TypeError` (a char or key is not a mapping); empty ones produce `[]`.
Numbers, booleans and null are not iterable (`TypeError`). -/
def parse_entries_val : JVal → Except PyErr (List TOTPEntry)
  | .jarr xs => parse_items xs
  | .jstr s => if s.isEmpty then .ok [] else .error .typeError
  | .jobj kvs => if kvs.isEmpty then .ok [] else .error .typeError
  | _ => .error .typeError

/-- The part of `Vault.load` after a successful decryption:
`json.loads`, then `data["entries"]`, then the entry comprehension. -/
def parse_payload (plain : Plain) : Except PyErr (List TOTPEntry) :=
  match json_loads plain with
  | .error e => .error e
  | .ok data =>
    match getitem_entries data with
    | .error e => .error e
    | .ok v => parse_entries_val v

/-- The pipeline of `Vault.load(password)`: existence check, file read and
16-byte salt split, decryption, payload parsing. -/
def load_entries (st : VaultState) (password : PyStr) :
    Except PyErr (List TOTPEntry) :=
  match st.file with
  | none => .error .fileNotFoundError
  | some f =>
    match decrypt_data f.cipher password f.salt with
    | .error e => .error e
    | .ok plain => parse_payload plain

/-- `Vault.load(password)`.  The method's only mutation is the final
statement `self._entries = [...]`, whose right-hand side is fully
evaluated first, so any exception leaves the state untouched; the result
pairs the post-call state with the raised exception, if any. -/
def Vault.load (st : VaultState) (password : PyStr) :
    VaultState × Option PyErr :=
  match load_entries st password with
  | .ok es => ({ st with entries := es }, none)
  | .error e => (st, some e)

/-- `Vault.add_entry(entry)`: append, no uniqueness check. -/
def Vault.add_entry (st : VaultState) (e : TOTPEntry) : VaultState :=
  { st with entries := st.entries ++ [e] }

/-- The predicate of `Vault.get_entry_exact`: the stored label,
percent-decoded, equals the requested label case-insensitively. -/
def exactMatches (lbl : PyStr) (e : TOTPEntry) : Bool :=
  pyLower (unquote e.label) == pyLower lbl

/-- The fallback predicate of `Vault.get_entry`: the stored label,
percent-decoded and lowercased, starts with the lowercased requested
label. -/
def startMatches (lbl : PyStr) (e : TOTPEntry) : Bool :=
  (pyLower lbl).isPrefixOf (pyLower (unquote e.label))

/-- `Vault.get_entry_exact(label)`: first entry (insertion order) whose
percent-decoded label equals `label` case-insensitively. -/
def Vault.get_entry_exact (lbl : PyStr) (entries : List TOTPEntry) :
    Option TOTPEntry :=
  entries.find? (exactMatches lbl)

/-- `Vault.get_entry(label)`: exact match first; otherwise the first entry
whose decoded lowercased label starts with the lowercased `label`. -/
def Vault.get_entry (lbl : PyStr) (entries : List TOTPEntry) :
    Option TOTPEntry :=
  match Vault.get_entry_exact lbl entries with
  | some e => some e
  | none => entries.find? (startMatches lbl)

/-- `Vault.list_entries()`: a copy of the entry list (a pure value here). -/
def Vault.list_entries (st : VaultState) : List TOTPEntry :=
  st.entries

/-- The predicate of `Vault.remove_entry`: raw (not decoded) stored label,
case-insensitively. -/
def rawMatches (lbl : PyStr) (e : TOTPEntry) : Bool :=
  pyLower e.label == pyLower lbl

/-- `Vault.remove_entry(label)`: pop the first entry (insertion order)
whose raw label matches `label` case-insensitively and return `True`;
return `False` when none matches. -/
def Vault.remove_entry (lbl : PyStr) : List TOTPEntry → Bool × List TOTPEntry
  | [] => (false, [])
  | e :: rest =>
    if rawMatches lbl e then (true, rest)
    else
      let r := Vault.remove_entry lbl rest
      (r.1, e :: r.2)

/-! ## Helper lemmas -/

/-- Round-trip of one entry through its record form. -/
theorem from_dict_to_dict (e : TOTPEntry) : TOTPEntry.from_dict e.to_dict = .ok e := rfl

/-- The entry comprehension undoes `to_dict` across a whole list. -/
theorem parse_items_to_dict (es : List TOTPEntry) :
    parse_items (es.map (fun e => .jobj e.to_dict)) = .ok es := by
  induction es with
  | nil => rfl
  | cons e rest ih =>
    have h1 : parse_entry_item (.jobj e.to_dict) = .ok e := rfl
    simp only [List.map_cons, parse_items, h1, ih]

/-- `find?` returns the element after the first block of non-matches. -/
theorem find?_split_first {α} (p : α → Bool) (pre : List α) (e : α) (post : List α)
    (hpre : ∀ x ∈ pre, p x = false) (he : p e = true) :
    (pre ++ e :: post).find? p = some e := by
  induction pre with
  | nil => rw [List.nil_append]; exact List.find?_cons_of_pos _ he
  | cons a pre ih =>
    have ha : p a = false := hpre a (List.mem_cons_self a pre)
    rw [List.cons_append, List.find?_cons_of_neg _ (by simp [ha])]
    exact ih (fun x hx => hpre x (List.mem_cons_of_mem _ hx))

/-- The empty list of characters starts every list of characters. -/
theorem nil_isPrefixOf (l : List Char) : ([] : List Char).isPrefixOf l = true := by
  cases l <;> rfl

/-- `from_dict` raises only `TypeError`. -/
theorem from_dict_error_kind {data : List (PyStr × JVal)} {e : PyErr}
    (h : TOTPEntry.from_dict data = .error e) : e = .typeError := by
  unfold TOTPEntry.from_dict at h
  split at h
  · exact (Except.error.inj h).symm
  · split at h
    · exact absurd h (by simp)
    · exact (Except.error.inj h).symm

/-- One step of the entry comprehension raises only `TypeError`. -/
theorem parse_entry_item_error_kind {v : JVal} {e : PyErr}
    (h : parse_entry_item v = .error e) : e = .typeError := by
  cases v <;> first
    | exact from_dict_error_kind h
    | exact (Except.error.inj h).symm

/-- The entry comprehension raises only `TypeError`. -/
theorem parse_items_error_kind {xs : List JVal} {e : PyErr}
    (h : parse_items xs = .error e) : e = .typeError := by
  induction xs with
  | nil => exact absurd h (by simp [parse_items])
  | cons x xs ih =>
    unfold parse_items at h
    cases hx : parse_entry_item x with
    | error e1 =>
      rw [hx] at h
      cases Except.error.inj h
      exact parse_entry_item_error_kind hx
    | ok t =>
      rw [hx] at h
      cases hr : parse_items xs with
      | error e2 =>
        rw [hr] at h
        cases Except.error.inj h
        exact ih hr
      | ok ts => rw [hr] at h; exact absurd h (by simp)

/-- `data["entries"]` raises only `KeyError` or `TypeError`. -/
theorem getitem_entries_error_kind {v : JVal} {e : PyErr}
    (h : getitem_entries v = .error e) : e = .keyError ∨ e = .typeError := by
  cases v with
  | jobj kvs =>
    have h' : (match kvs.lookup kEntries with
        | some v => (Except.ok v : Except PyErr JVal)
        | none => Except.error PyErr.keyError) = Except.error e := h
    cases hl : kvs.lookup kEntries with
    | some w => rw [hl] at h'; exact absurd h' (by simp)
    | none => rw [hl] at h'; left; exact (Except.error.inj h').symm
  | jstr s => right; exact (Except.error.inj h).symm
  | jint n => right; exact (Except.error.inj h).symm
  | jbool b => right; exact (Except.error.inj h).symm
  | jnull => right; exact (Except.error.inj h).symm
  | jarr xs => right; exact (Except.error.inj h).symm

/-- Iterating the `"entries"` value raises only `TypeError`. -/
theorem parse_entries_val_error_kind {v : JVal} {e : PyErr}
    (h : parse_entries_val v = .error e) : e = .typeError := by
  cases v with
  | jarr xs => exact parse_items_error_kind h
  | jstr s =>
    cases s with
    | nil => exact absurd h (by simp [parse_entries_val])
    | cons c cs => exact (Except.error.inj h).symm
  | jobj kvs =>
    cases kvs with
    | nil => exact absurd h (by simp [parse_entries_val])
    | cons kv kvs => exact (Except.error.inj h).symm
  | jint n => exact (Except.error.inj h).symm
  | jbool b => exact (Except.error.inj h).symm
  | jnull => exact (Except.error.inj h).symm

/-- The post-decryption part of `load` raises only `JSONDecodeError`,
`KeyError` or `TypeError`. -/
theorem parse_payload_error_kind {plain : Plain} {e : PyErr}
    (h : parse_payload plain = .error e) :
    e = .jsonDecodeError ∨ e = .keyError ∨ e = .typeError := by
  cases plain with
  | none => left; exact (Except.error.inj h).symm
  | some j =>
    have hj : parse_payload (some j) =
        (match getitem_entries j with
          | .error e => .error e
          | .ok v => parse_entries_val v) := rfl
    rw [hj] at h
    cases hg : getitem_entries j with
    | error e1 =>
      rw [hg] at h
      cases Except.error.inj h
      rcases getitem_entries_error_kind hg with h' | h'
      · exact Or.inr (Or.inl h')
      · exact Or.inr (Or.inr h')
    | ok v =>
      rw [hg] at h
      exact Or.inr (Or.inr (parse_entries_val_error_kind h))

/-! ## Claim theorems -/

/-- Claim C1: saving a vault whose in-memory entries are `L` and loading
the same file with the same password succeeds and yields an in-memory
entries list equal to `L`, element by element, in order and in all five
fields (list equality of `TOTPEntry` is field-wise). -/
theorem save_load_roundtrip (st : VaultState) (p : PyStr) (rs : Salt) (rn : Nat) :
    (Vault.load (Vault.save st p rs rn) p).2 = none ∧
    (Vault.load (Vault.save st p rs rn) p).1.entries = st.entries := by
  simp only [Vault.load, Vault.save, load_entries, encrypt_data, decrypt_data, derive_key,
    parse_payload, json_loads, getitem_entries, dumps_vault, parse_entries_val]
  simp [parse_items_to_dict]

/-- Claim C2: decrypting a ciphertext produced under password `P` with a
different password `P2` (and the matching salt) fails with the typed
`InvalidToken` error (the spec's `AuthenticationFailure`) and never
returns a plaintext.  The external PBKDF2 KDF is modelled as
collision-free in the password, which is the idealisation the claim's
universal quantification relies on. -/
theorem decrypt_wrong_password_fails (M : Plain) (P P2 : PyStr) (rs : Salt) (rn : Nat)
    (h : P ≠ P2) :
    decrypt_data (encrypt_data M P rs rn).1 P2 (encrypt_data M P rs rn).2 =
      .error .invalidToken := by
  simp only [encrypt_data, decrypt_data, derive_key]
  rw [if_neg]
  intro hk
  exact h (congrArg DerivedKey.password hk)

/-- Witness for C2 at the passwords of `tests/test_crypto.py`. -/
theorem decrypt_wrong_password_fails_witness :
    pystr "123456" ≠ pystr "654321" ∧
    decrypt_data
        (encrypt_data (some (.jstr (pystr "test data"))) (pystr "123456")
          [0, 1, 2, 3, 4, 5, 6, 7, 8, 9, 10, 11, 12, 13, 14, 15] 7).1
        (pystr "654321")
        (encrypt_data (some (.jstr (pystr "test data"))) (pystr "123456")
          [0, 1, 2, 3, 4, 5, 6, 7, 8, 9, 10, 11, 12, 13, 14, 15] 7).2 =
      .error .invalidToken :=
  ⟨by decide, decrypt_wrong_password_fails _ _ _ _ _ (by decide)⟩

/-- Claim C8: two `encrypt_data` calls with identical plaintext and
password whose 16-byte random salt draws differ produce different 16-byte
salts and different ciphertexts. -/
theorem encrypt_salt_freshness (M : Plain) (P : PyStr) (s1 s2 : Salt) (n1 n2 : Nat)
    (hl1 : s1.length = 16) (hl2 : s2.length = 16) (hne : s1 ≠ s2) :
    (encrypt_data M P s1 n1).2 ≠ (encrypt_data M P s2 n2).2 ∧
    (encrypt_data M P s1 n1).2.length = 16 ∧
    (encrypt_data M P s2 n2).2.length = 16 ∧
    (encrypt_data M P s1 n1).1 ≠ (encrypt_data M P s2 n2).1 := by
  refine ⟨hne, hl1, hl2, ?_⟩
  intro hc
  have hk := congrArg Cipher.key hc
  exact hne (congrArg DerivedKey.salt hk)

/-- Witness for C8 at two concrete distinct 16-byte draws. -/
theorem encrypt_salt_freshness_witness :
    ([0, 0, 0, 0, 0, 0, 0, 0, 0, 0, 0, 0, 0, 0, 0, 0] : Salt).length = 16 ∧
    ([1, 0, 0, 0, 0, 0, 0, 0, 0, 0, 0, 0, 0, 0, 0, 0] : Salt).length = 16 ∧
    ([0, 0, 0, 0, 0, 0, 0, 0, 0, 0, 0, 0, 0, 0, 0, 0] : Salt) ≠
      [1, 0, 0, 0, 0, 0, 0, 0, 0, 0, 0, 0, 0, 0, 0, 0] ∧
    ((encrypt_data (some (.jstr (pystr "test data"))) (pystr "123456")
        [0, 0, 0, 0, 0, 0, 0, 0, 0, 0, 0, 0, 0, 0, 0, 0] 7).2 ≠
      (encrypt_data (some (.jstr (pystr "test data"))) (pystr "123456")
        [1, 0, 0, 0, 0, 0, 0, 0, 0, 0, 0, 0, 0, 0, 0, 0] 7).2 ∧
    (encrypt_data (some (.jstr (pystr "test data"))) (pystr "123456")
        [0, 0, 0, 0, 0, 0, 0, 0, 0, 0, 0, 0, 0, 0, 0, 0] 7).1 ≠
      (encrypt_data (some (.jstr (pystr "test data"))) (pystr "123456")
        [1, 0, 0, 0, 0, 0, 0, 0, 0, 0, 0, 0, 0, 0, 0, 0] 7).1) :=
  ⟨by decide, by decide, by decide,
    let h := encrypt_salt_freshness (some (.jstr (pystr "test data"))) (pystr "123456")
      [0, 0, 0, 0, 0, 0, 0, 0, 0, 0, 0, 0, 0, 0, 0, 0]
      [1, 0, 0, 0, 0, 0, 0, 0, 0, 0, 0, 0, 0, 0, 0, 0] 7 7
      (by decide) (by decide) (by decide)
    ⟨h.1, h.2.2.2⟩⟩

/-- Claim C10: `create` writes an empty encrypted vault to the backing
path but leaves the in-memory entries (and hence `list_entries`)
unchanged; loading the file it wrote with the same password succeeds and
yields zero entries. -/
theorem create_preserves_entries (st : VaultState) (p : PyStr) (rs : Salt) (rn : Nat) :
    (Vault.create st p rs rn).entries = st.entries ∧
    Vault.list_entries (Vault.create st p rs rn) = Vault.list_entries st ∧
    (Vault.load (Vault.create st p rs rn) p).2 = none ∧
    (Vault.load (Vault.create st p rs rn) p).1.entries = [] := by
  refine ⟨rfl, rfl, ?_, ?_⟩ <;>
    simp [Vault.load, Vault.create, load_entries, encrypt_data, decrypt_data, derive_key,
      parse_payload, json_loads, getitem_entries, dumps_vault, parse_entries_val, parse_items]

/-- Claim C3: `get_entry` returns the first entry (insertion order) whose
percent-decoded label equals the given label case-insensitively; failing
that, the first entry whose decoded lowercased label starts with the
lowercased given label; and `none` exactly when neither phase matches.
The first conjunct makes no assumption about start-of-label matches, so an
exact match is returned in preference to any such match. -/
theorem get_entry_two_phase (lbl : PyStr) (es : List TOTPEntry) :
    (∀ pre e post, es = pre ++ e :: post → exactMatches lbl e = true →
        (∀ x ∈ pre, exactMatches lbl x = false) →
        Vault.get_entry lbl es = some e) ∧
    ((∀ x ∈ es, exactMatches lbl x = false) →
      ∀ pre e post, es = pre ++ e :: post → startMatches lbl e = true →
        (∀ x ∈ pre, startMatches lbl x = false) →
        Vault.get_entry lbl es = some e) ∧
    ((∀ x ∈ es, exactMatches lbl x = false ∧ startMatches lbl x = false) →
      Vault.get_entry lbl es = none) := by
  refine ⟨?_, ?_, ?_⟩
  · intro pre e post hsplit he hpre
    subst hsplit
    unfold Vault.get_entry Vault.get_entry_exact
    rw [find?_split_first _ pre e post hpre he]
  · intro hnoexact pre e post hsplit he hpre
    subst hsplit
    unfold Vault.get_entry Vault.get_entry_exact
    rw [List.find?_eq_none.mpr (fun x hx => by simp [hnoexact x hx]),
      find?_split_first _ pre e post hpre he]
  · intro hnone
    unfold Vault.get_entry Vault.get_entry_exact
    rw [List.find?_eq_none.mpr (fun x hx => by simp [(hnone x hx).1]),
      List.find?_eq_none.mpr (fun x hx => by simp [(hnone x hx).2])]

/-- Entries used by the concrete witnesses, taken from `tests/test_vault.py`. -/
def eGithub : TOTPEntry := ⟨pystr "GitHub", pystr "JBSWY3DPEHPK3PXP", 6, defaultAlgorithm, 30⟩

/-- Entry with a longer label, for the start-of-label fallback witness. -/
def eGithubUser : TOTPEntry :=
  ⟨pystr "GitHub: user@example.com", pystr "JBSWY3DPEHPK3PXP", 6, defaultAlgorithm, 30⟩

/-- Witness for C3: second-phase lookup on `["GitHub: user@example.com"]`
with the query `"GitHub"`, and a failing lookup. -/
theorem get_entry_two_phase_witness :
    Vault.get_entry (pystr "GitHub") [eGithubUser] = some eGithubUser ∧
    Vault.get_entry (pystr "zzz") [eGithubUser] = none :=
  ⟨(get_entry_two_phase (pystr "GitHub") [eGithubUser]).2.1 (by decide)
      [] eGithubUser [] rfl (by decide) (by decide),
    (get_entry_two_phase (pystr "zzz") [eGithubUser]).2.2 (by decide)⟩

/-- Claim C7: `remove_entry` matches the raw (not percent-decoded) stored
labels case-insensitively, removes exactly the first match in insertion
order leaving the other entries in their relative order, and returns
`true`; when nothing matches it removes nothing and returns `false`. -/
theorem remove_entry_raw_first_match (lbl : PyStr) (es : List TOTPEntry) :
    (∀ pre e post, es = pre ++ e :: post → rawMatches lbl e = true →
        (∀ x ∈ pre, rawMatches lbl x = false) →
        Vault.remove_entry lbl es = (true, pre ++ post)) ∧
    ((∀ x ∈ es, rawMatches lbl x = false) →
      Vault.remove_entry lbl es = (false, es)) := by
  constructor
  · intro pre e post hsplit he hpre
    subst hsplit
    induction pre with
    | nil => simp [Vault.remove_entry, he]
    | cons a pre ih =>
      have ha : rawMatches lbl a = false := hpre a (List.mem_cons_self a pre)
      simp only [List.cons_append, Vault.remove_entry, ha, Bool.false_eq_true, if_false,
        List.append_eq, ih (fun x hx => hpre x (List.mem_cons_of_mem _ hx))]
  · intro hnone
    induction es with
    | nil => rfl
    | cons a es ih =>
      have ha : rawMatches lbl a = false := hnone a (List.mem_cons_self a es)
      simp only [Vault.remove_entry, ha, Bool.false_eq_true, if_false,
        ih (fun x hx => hnone x (List.mem_cons_of_mem _ hx))]

/-- Witness for C7: the spec's own example — adding `"GitHub"` and
removing `"github"` returns `true` and leaves zero entries; removing an
absent label returns `false` and changes nothing. -/
theorem remove_entry_raw_first_match_witness :
    Vault.remove_entry (pystr "github") [eGithub] = (true, []) ∧
    Vault.remove_entry (pystr "absent") [eGithub] = (false, [eGithub]) :=
  ⟨(remove_entry_raw_first_match (pystr "github") [eGithub]).1
      [] eGithub [] rfl (by decide) (by decide),
    (remove_entry_raw_first_match (pystr "absent") [eGithub]).2 (by decide)⟩

/-- Claim C9: on a non-empty vault, `get_entry ""` always returns some
entry: the empty string starts every decoded label, so when no entry has
an empty decoded label the head entry is returned; when some entry does,
the first such entry is returned by the exact phase. -/
theorem get_entry_empty_label (es : List TOTPEntry) (h : es ≠ []) :
    (Vault.get_entry (pystr "") es).isSome = true ∧
    ((∀ x ∈ es, exactMatches (pystr "") x = false) →
      Vault.get_entry (pystr "") es = es.head?) ∧
    (∀ pre e post, es = pre ++ e :: post → exactMatches (pystr "") e = true →
        (∀ x ∈ pre, exactMatches (pystr "") x = false) →
        Vault.get_entry (pystr "") es = some e) := by
  have hstart : ∀ x : TOTPEntry, startMatches (pystr "") x = true := fun x =>
    nil_isPrefixOf (pyLower (unquote x.label))
  obtain ⟨a, es', rfl⟩ : ∃ a es', es = a :: es' := by
    cases es with
    | nil => exact absurd rfl h
    | cons a es' => exact ⟨a, es', rfl⟩
  refine ⟨?_, ?_, ?_⟩
  · unfold Vault.get_entry Vault.get_entry_exact
    cases hfind : (a :: es').find? (exactMatches (pystr "")) with
    | some e => rfl
    | none => rw [List.find?_cons_of_pos _ (hstart a)]; rfl
  · intro hnoexact
    unfold Vault.get_entry Vault.get_entry_exact
    rw [List.find?_eq_none.mpr (fun x hx => by simp [hnoexact x hx]),
      List.find?_cons_of_pos _ (hstart a)]
    rfl
  · intro pre e post hsplit he hpre
    rw [hsplit]
    unfold Vault.get_entry Vault.get_entry_exact
    rw [find?_split_first _ pre e post hpre he]

/-- Witness for C9 on the one-entry vault `["GitHub"]`. -/
theorem get_entry_empty_label_witness :
    (Vault.get_entry (pystr "") [eGithub]).isSome = true ∧
    Vault.get_entry (pystr "") [eGithub] = some eGithub :=
  ⟨(get_entry_empty_label [eGithub] (by decide)).1,
    (get_entry_empty_label [eGithub] (by decide)).2.1 (by decide)⟩

/-- Password used by the concrete corrupt-vault inputs. -/
def pwX : PyStr := pystr "pw"

/-- A concrete 16-byte salt for the corrupt-vault inputs. -/
def saltX : Salt := [1, 2, 3, 4, 5, 6, 7, 8, 9, 10, 11, 12, 13, 14, 15, 16]

/-- A vault file whose ciphertext decrypts (under `pwX`) to a string that
is not valid JSON. -/
def fileMalformedJson : VaultFile := ⟨saltX, ⟨derive_key pwX saltX, none, 0⟩⟩

/-- A vault file whose ciphertext decrypts (under `pwX`) to the valid JSON
object `{}`, which lacks the required `"entries"` key. -/
def fileMissingEntriesKey : VaultFile :=
  ⟨saltX, ⟨derive_key pwX saltX, some (.jobj []), 0⟩⟩

/-- Counterexample to claim C4: on the two concrete files whose decryption
succeeds but whose payload is invalid, `load` surfaces the raw library
exceptions — `json.JSONDecodeError` for the unparseable payload and the
builtin `KeyError` for the missing `"entries"` key.  These are two
different generic errors, so there is no single dedicated `CorruptVault`
error type as the claim states. -/
theorem load_corrupt_counterexample :
    (Vault.load ⟨some fileMalformedJson, []⟩ pwX).2 = some .jsonDecodeError ∧
    (Vault.load ⟨some fileMissingEntriesKey, []⟩ pwX).2 = some .keyError ∧
    PyErr.jsonDecodeError ≠ PyErr.keyError := by
  refine ⟨rfl, rfl, by decide⟩

/-- Claim C4 as amended: when decryption succeeds, `load` fails exactly
when executing the payload raises — with the underlying generic exception
(`JSONDecodeError` for an unparseable payload, `KeyError` or `TypeError`
from the subscript and the entry comprehension), at least distinct from
`InvalidToken` (`AuthenticationFailure`) and `FileNotFoundError`
(`NotFound`), leaving the in-memory entries unchanged — and there is no
dedicated `CorruptVault` type and no schema validation beyond what
execution demands: the invalid documents `{"entries": ""}` and
`{"entries": {}}` load successfully as empty vaults, and record values
are not type-checked (`{"label": 5, "secret": "S"}` constructs an
entry). -/
theorem load_corrupt_amended (st : VaultState) (p : PyStr) (f : VaultFile)
    (plain : Plain)
    (hf : st.file = some f)
    (hdec : decrypt_data f.cipher p f.salt = .ok plain) :
    (∀ e : PyErr, parse_payload plain = .error e →
      (Vault.load st p).2 = some e ∧
      (Vault.load st p).1.entries = st.entries ∧
      (e = .jsonDecodeError ∨ e = .keyError ∨ e = .typeError) ∧
      e ≠ .invalidToken ∧ e ≠ .fileNotFoundError) ∧
    (∀ es : List TOTPEntry, parse_payload plain = .ok es →
      (Vault.load st p).2 = none ∧ (Vault.load st p).1.entries = es) ∧
    parse_payload (some (.jobj [(kEntries, .jstr [])])) = .ok [] ∧
    parse_payload (some (.jobj [(kEntries, .jobj [])])) = .ok [] ∧
    (∃ t : TOTPEntry,
      TOTPEntry.from_dict [(kLabel, .jint 5), (kSecret, .jstr (pystr "S"))] = .ok t) := by
  refine ⟨?_, ?_, rfl, rfl, ⟨⟨[], pystr "S", 6, defaultAlgorithm, 30⟩, rfl⟩⟩
  · intro e hparse
    have hle : load_entries st p = .error e := by
      simp only [load_entries, hf, hdec, hparse]
    have hkind := parse_payload_error_kind hparse
    refine ⟨?_, ?_, hkind, ?_, ?_⟩
    · simp [Vault.load, hle]
    · simp [Vault.load, hle]
    · rcases hkind with h | h | h <;> simp [h]
    · rcases hkind with h | h | h <;> simp [h]
  · intro es hparse
    have hle : load_entries st p = .ok es := by
      simp only [load_entries, hf, hdec, hparse]
    exact ⟨by simp [Vault.load, hle], by simp [Vault.load, hle]⟩

/-- Witness for the amended C4 on the missing-`"entries"` file, with a
non-empty in-memory entry list that the failed load leaves intact. -/
theorem load_corrupt_amended_witness :
    (Vault.load ⟨some fileMissingEntriesKey, [eGithub]⟩ pwX).2 = some .keyError ∧
    (Vault.load ⟨some fileMissingEntriesKey, [eGithub]⟩ pwX).1.entries = [eGithub] ∧
    (PyErr.keyError = .jsonDecodeError ∨ PyErr.keyError = .keyError ∨
      PyErr.keyError = .typeError) ∧
    PyErr.keyError ≠ .invalidToken ∧ PyErr.keyError ≠ .fileNotFoundError :=
  (load_corrupt_amended ⟨some fileMissingEntriesKey, [eGithub]⟩ pwX fileMissingEntriesKey
    (some (.jobj [])) rfl rfl).1 .keyError rfl

/-- Counterexample to claim C5: a record with the unknown extra field
`"issuer"` does not construct an entry with the extra field ignored —
`cls(**data)` rejects the unexpected keyword argument with a `TypeError`. -/
theorem from_dict_extra_counterexample :
    TOTPEntry.from_dict [(kLabel, .jstr (pystr "A")), (kSecret, .jstr (pystr "S")),
      (pystr "issuer", .jstr (pystr "X"))] = .error .typeError := rfl

/-- Claim C5 as amended: `from_dict` rejects a record containing any
unknown extra field with a `TypeError` (instead of ignoring it); a record
with only `label` and `secret` gets the defaults `6`, `"SHA1"`, `30`; a
record missing `label` or `secret` fails with the generic `TypeError`
(there is no dedicated `MalformedEntry` type); and together with
`to_dict` (which emits exactly the five named fields) it is a lossless
round-trip over those fields. -/
theorem from_dict_record_semantics :
    (∀ e : TOTPEntry, TOTPEntry.from_dict e.to_dict = .ok e ∧
      e.to_dict.map Prod.fst = entryFieldNames) ∧
    (∀ l s : PyStr, TOTPEntry.from_dict [(kLabel, .jstr l), (kSecret, .jstr s)] =
      .ok ⟨l, s, 6, defaultAlgorithm, 30⟩) ∧
    (∀ (data : List (PyStr × JVal)) (kv : PyStr × JVal), kv ∈ data →
      entryFieldNames.contains kv.1 = false →
      TOTPEntry.from_dict data = .error .typeError) ∧
    (∀ data : List (PyStr × JVal),
      data.lookup kLabel = none ∨ data.lookup kSecret = none →
      TOTPEntry.from_dict data = .error .typeError) := by
  refine ⟨fun e => ⟨from_dict_to_dict e, rfl⟩, fun l s => rfl, ?_, ?_⟩
  · intro data kv hmem hct
    unfold TOTPEntry.from_dict
    rw [if_pos (List.any_eq_true.mpr
      ⟨kv, hmem, by show (!entryFieldNames.contains kv.1) = true; rw [hct]; rfl⟩)]
  · intro data h
    unfold TOTPEntry.from_dict
    by_cases hany : data.any (fun kv => !(entryFieldNames.contains kv.1)) = true
    · rw [if_pos hany]
    · rw [if_neg hany]
      rcases h with h | h
      · have hl : getStrField data kLabel none = none := by simp [getStrField, h]
        rw [hl]
      · cases hl : getStrField data kLabel none with
        | none => rfl
        | some l =>
          have hs : getStrField data kSecret none = none := by simp [getStrField, h]
          rw [hs]

/-- Witness for the amended C5: round-trip, defaults, extra-field
rejection and missing-required rejection at concrete records. -/
theorem from_dict_record_semantics_witness :
    TOTPEntry.from_dict eGithub.to_dict = .ok eGithub ∧
    TOTPEntry.from_dict [(kLabel, .jstr (pystr "A")), (kSecret, .jstr (pystr "S"))] =
      .ok ⟨pystr "A", pystr "S", 6, defaultAlgorithm, 30⟩ ∧
    TOTPEntry.from_dict [(kLabel, .jstr (pystr "A")), (pystr "issuer", .jnull)] =
      .error .typeError ∧
    TOTPEntry.from_dict [(kSecret, .jstr (pystr "S"))] = .error .typeError :=
  ⟨(from_dict_record_semantics.1 eGithub).1,
    from_dict_record_semantics.2.1 (pystr "A") (pystr "S"),
    from_dict_record_semantics.2.2.1 _ (pystr "issuer", .jnull)
      (List.mem_cons_of_mem _ (List.mem_cons_self _ _)) (by decide),
    from_dict_record_semantics.2.2.2 _ (Or.inl rfl)⟩

/-- Claim C6: whenever `load` fails — absent file, failed decryption, or
invalid decrypted payload — the whole vault state, in particular the
in-memory entries sequence, is exactly what it was before the call; the
method's only mutation is its final assignment, which a raised exception
never reaches. -/
theorem load_failure_preserves_state (st : VaultState) (p : PyStr)
    (h : (Vault.load st p).2.isSome = true) :
    (Vault.load st p).1 = st := by
  unfold Vault.load at h ⊢
  cases hle : load_entries st p with
  | ok es => rw [hle] at h; exact absurd h (by simp)
  | error e => rfl

/-- Witness for C6: loading a vault whose file is absent fails and leaves
the non-empty in-memory entry list unchanged. -/
theorem load_failure_preserves_state_witness :
    ((Vault.load ⟨none, [eGithub]⟩ pwX).2.isSome = true) ∧
    (Vault.load ⟨none, [eGithub]⟩ pwX).1 = ⟨none, [eGithub]⟩ :=
  ⟨by decide, load_failure_preserves_state ⟨none, [eGithub]⟩ pwX (by decide)⟩

end Dotp
